import Mathlib

/-!
Shallow embedding of the hardex hardware-price oracle core:
the outlier filter and median (aggregator/outlier.ts), the TWAP
calculator (aggregator/twap.ts), the price aggregator
(aggregator/index.ts), the HTTP retry helper (adapters/types.ts),
the oracle request/response envelope (chainlink/response.ts), the
history-store HTTP handlers (chainlink/adapter.ts and api/rental.ts)
and the rental-marketplace adapter (adapters/rental-vastai.ts),
with theorems settling the specification claims.

Numbers are modelled as rationals, timestamps as integers, `bigint`
values as integers.  Stateful code is modelled by explicit state
passing; randomness is modelled by passing the drawn values as
arguments; `Promise` failure/result alternatives are modelled with
`Except`/`Option`.
-/

namespace Hardex

/-! ## Data model (adapters/types.ts) -/

/-- An observation emitted by an adapter (`PricePoint`). -/
structure PricePoint where
  price : ℚ
  source : String
  timestamp : ℤ
  assetId : String
  deriving DecidableEq

/-! ## Outlier filter (aggregator/outlier.ts) -/

/-- `median` from outlier.ts: 0 for empty input, otherwise sort
ascending; for even length the mean of the two middle values, for odd
length the middle value. -/
def median (values : List ℚ) : ℚ :=
  if values.length = 0 then 0
  else
    let s := List.insertionSort (· ≤ ·) values
    let mid := s.length / 2
    if s.length % 2 = 0 then (s.getD (mid - 1) 0 + s.getD mid 0) / 2
    else s.getD mid 0

/-- `medianAbsoluteDeviation` from outlier.ts. -/
def medianAbsoluteDeviation (values : List ℚ) : ℚ :=
  if values.length = 0 then 0
  else
    let med := median values
    median (values.map fun v => |v - med|)

/-- The MAD-to-sigma constant `k = 1.4826` used by `filterOutliers`. -/
def madScale : ℚ := 14826 / 10000

/-- The default `threshold` argument of `filterOutliers`. -/
def defaultThreshold : ℚ := 3

/-- `filterOutliers` from outlier.ts: with fewer than 3 points the
input is returned unchanged; otherwise points whose z-score
`|x − m| / (k · d')` exceeds the threshold are removed, where
`d' = mad` unless `mad = 0`, in which case `d' = 0.01 · m`. -/
def filterOutliers (prices : List PricePoint) (threshold : ℚ) :
    List PricePoint :=
  if prices.length < 3 then prices
  else
    let values := prices.map (·.price)
    let med := median values
    let madValue := medianAbsoluteDeviation values
    let effectiveMad := if madValue = 0 then med * (1 / 100) else madValue
    prices.filter fun p =>
      decide (|p.price - med| / (madScale * effectiveMad) ≤ threshold)

/-! ## TWAP calculator (aggregator/twap.ts)

The per-asset observation list of `TWAPCalculator` is passed
explicitly; `Date.now()` is the `now` argument. -/

/-- A TWAP observation (`PriceObservation`). -/
structure TwapObs where
  price : ℚ
  timestamp : ℤ
  deriving DecidableEq

/-- `prune`: keep observations with `timestamp ≥ now − windowMs`. -/
def twapPrune (windowMs now : ℤ) (obs : List TwapObs) : List TwapObs :=
  obs.filter fun o => decide (now - windowMs ≤ o.timestamp)

/-- `addObservation`: append the new observation, then prune. -/
def twapAddObservation (windowMs : ℤ) (obs : List TwapObs) (price : ℚ)
    (now : ℤ) : List TwapObs :=
  twapPrune windowMs now (obs ++ [TwapObs.mk price now])

/-- The loop of `getTWAP` accumulating `weightedSum` over adjacent
pairs of the timestamp-sorted list. -/
def twapWeightedSum (s : List TwapObs) : ℚ :=
  ((s.zip s.tail).map fun ab =>
    ab.1.price * ((ab.2.timestamp - ab.1.timestamp : ℤ) : ℚ)).sum

/-- The loop of `getTWAP` accumulating `totalWeight` over adjacent
pairs of the timestamp-sorted list. -/
def twapTotalWeight (s : List TwapObs) : ℤ :=
  ((s.zip s.tail).map fun ab => ab.2.timestamp - ab.1.timestamp).sum

/-- The timestamp-ascending sort performed by `getTWAP`. -/
def twapSort (obs : List TwapObs) : List TwapObs :=
  List.insertionSort (fun a b => a.timestamp ≤ b.timestamp) obs

/-- `getTWAP` from twap.ts (value part; the pruning side effect on the
state is applied separately where the aggregator calls it). -/
def getTWAP (windowMs : ℤ) (obs : List TwapObs) (now : ℤ) : Option ℚ :=
  let pruned := twapPrune windowMs now obs
  if pruned.length = 0 then none
  else if pruned.length = 1 then some ((pruned.getD 0 (TwapObs.mk 0 0)).price)
  else
    let s := twapSort pruned
    let weightedSum := twapWeightedSum s
    let totalWeight := twapTotalWeight s
    let lastObs := s.getLastD (TwapObs.mk 0 0)
    let lastDuration := now - lastObs.timestamp
    let weightedSum2 :=
      if 0 < lastDuration then weightedSum + lastObs.price * (lastDuration : ℚ)
      else weightedSum
    let totalWeight2 :=
      if 0 < lastDuration then totalWeight + lastDuration else totalWeight
    if totalWeight2 = 0 then some lastObs.price
    else some (weightedSum2 / (totalWeight2 : ℚ))

/-- `getSpotPrice` from twap.ts: prune, then take the observation with
the greatest timestamp (JS `reduce` keeps the earlier one on ties). -/
def getSpotPrice (windowMs : ℤ) (obs : List TwapObs) (now : ℤ) : Option ℚ :=
  match twapPrune windowMs now obs with
  | [] => none
  | h :: t =>
    some ((t.foldl
      (fun latest o => if latest.timestamp < o.timestamp then o else latest)
      h).price)

/-! ## Price aggregator (aggregator/index.ts) -/

/-- Per-source summary (`SourceDetail`). -/
structure SourceDetail where
  name : String
  price : ℚ
  count : ℕ
  isSimulated : Bool
  deriving DecidableEq

/-- The current fused price record (`AggregatedPrice`). -/
structure AggregatedPrice where
  assetId : String
  price : ℚ
  twap : ℚ
  priceInt : ℤ
  sourceCount : ℕ
  timestamp : ℤ
  updatedAt : ℤ
  currency : String
  sources : List SourceDetail
  deriving DecidableEq

/-- The result of one round (`PriceUpdate`). -/
structure PriceUpdate where
  assetId : String
  price : AggregatedPrice
  changed : Bool
  deriving DecidableEq

/-- The mutable state of `PriceAggregator`: the `lastPrices` map and
the TWAP calculator's per-asset observation lists. -/
structure AggState where
  lastPrices : String → Option AggregatedPrice
  twapObs : String → List TwapObs

/-- The aggregator's state at construction: both maps empty. -/
def initState : AggState :=
  AggState.mk (fun _ => none) (fun _ => [])

/-- `toPriceInt`: USD price to 8-decimal integer,
`BigInt(Math.round(price * 1e8))`. -/
def toPriceInt (price : ℚ) : ℤ :=
  round (price * 100000000)

/-- `formatSourceName`: the fixed display-name map. -/
def formatSourceName (name : String) : String :=
  if name = "mock" then "Simulated"
  else if name = "bestbuy-scraper" then "Best Buy"
  else if name = "newegg-scraper" then "Newegg"
  else if name = "amazon-scraper" then "Amazon"
  else if name = "bhphoto-scraper" then "B&H Photo"
  else if name = "ebay" then "eBay"
  else if name = "amazon" then "Amazon API"
  else if name = "bestbuy" then "Best Buy API"
  else name

/-- Helper for `sourceKeys`: keys not yet seen, in order of first
occurrence. -/
def sourceKeysAux : List PricePoint → List String → List String
  | [], _ => []
  | p :: rest, seen =>
    if p.source ∈ seen then sourceKeysAux rest seen
    else p.source :: sourceKeysAux rest (p.source :: seen)

/-- The keys of the `sourceMap` built by `updatePrice`, in insertion
order (JS `Map` preserves first-occurrence order). -/
def sourceKeys (l : List PricePoint) : List String :=
  sourceKeysAux l []

/-- `isPriceChangeSignificant` (JS `oldPrice === undefined || oldPrice === 0`
returns true; `newPrice === 0` returns false; otherwise compare the
relative change against the threshold). -/
def isPriceChangeSignificant (threshold : ℚ) (oldPrice : Option ℚ)
    (newPrice : ℚ) : Bool :=
  match oldPrice with
  | none => true
  | some o =>
    if o = 0 then true
    else if newPrice = 0 then false
    else decide (threshold ≤ |newPrice - o| / o)

/-- `updatePrice` from aggregator/index.ts.  `results` is the list of
per-adapter observation lists after the per-adapter `catch` (a failed
adapter contributes `[]`); `now` stands for `Date.now()`. -/
def updatePrice (windowMs : ℤ) (changeThreshold : ℚ) (st : AggState)
    (assetId : String) (results : List (List PricePoint)) (now : ℤ) :
    AggState × PriceUpdate :=
  let allPrices := results.flatten
  let filteredPrices := filterOutliers allPrices defaultThreshold
  let medianPrice :=
    if 0 < filteredPrices.length then median (filteredPrices.map (·.price))
    else 0
  let obs1 :=
    if 0 < medianPrice then
      twapAddObservation windowMs (st.twapObs assetId) medianPrice now
    else st.twapObs assetId
  let twapResult := getTWAP windowMs obs1 now
  let obs2 := twapPrune windowMs now obs1
  let twap :=
    match twapResult with
    | none => medianPrice
    | some v => if v = 0 then medianPrice else v
  let keys := sourceKeys filteredPrices
  let sources := keys.map fun name =>
    let ps := (filteredPrices.filter fun p => p.source = name).map (·.price)
    SourceDetail.mk (formatSourceName name) (median ps) ps.length
      (decide (name = "mock"))
  let aggregatedPrice : AggregatedPrice :=
    { assetId := assetId
      price := medianPrice
      twap := twap
      priceInt := toPriceInt medianPrice
      sourceCount := sources.length
      timestamp := now
      updatedAt := now
      currency := "USD"
      sources := sources }
  let changed := isPriceChangeSignificant changeThreshold
    ((st.lastPrices assetId).map (·.price)) medianPrice
  let st2 : AggState :=
    { lastPrices := fun a =>
        if a = assetId then some aggregatedPrice else st.lastPrices a
      twapObs := fun a => if a = assetId then obs2 else st.twapObs a }
  (st2, PriceUpdate.mk assetId aggregatedPrice changed)

/-- `getPrice`: the stored value or null. -/
def getPrice (st : AggState) (assetId : String) : Option AggregatedPrice :=
  st.lastPrices assetId

/-- Aggregator states reachable from construction by any sequence of
`updatePrice` rounds (any window, threshold, asset, adapter results
and clock values). -/
inductive Reachable : AggState → Prop
  | init : Reachable initState
  | step (windowMs : ℤ) (changeThreshold : ℚ) (st : AggState)
      (assetId : String) (results : List (List PricePoint)) (now : ℤ) :
      Reachable st →
      Reachable (updatePrice windowMs changeThreshold st assetId results now).1

/-! ## HTTP retry helper (`fetchWithRetry`, adapters/types.ts) -/

/-- An HTTP response as seen by `fetchWithRetry`. -/
structure HttpResp where
  status : ℕ
  body : String
  deriving DecidableEq

/-- The outcome of one `client.get` attempt: a response, or a thrown
error. -/
inductive FetchOutcome where
  | response (r : HttpResp)
  | failure (e : String)
  deriving DecidableEq

/-- The retry loop of `fetchWithRetry`, counting down the remaining
attempts: `attempts i` is the outcome of the `i`-th `client.get`;
sleeps are irrelevant to the result.  Status 200 returns; status
403/429 retries; any other status returns; a throw records
`lastError` and retries; an exhausted loop throws `lastError` or
`Max retries exceeded`. -/
def fetchLoop (attempts : ℕ → FetchOutcome) (lastError : Option String)
    (attempt : ℕ) : ℕ → Except String HttpResp
  | 0 => Except.error (lastError.getD "Max retries exceeded")
  | remaining + 1 =>
    match attempts attempt with
    | FetchOutcome.response r =>
      if r.status = 200 then Except.ok r
      else if r.status = 403 ∨ r.status = 429 then
        fetchLoop attempts lastError (attempt + 1) remaining
      else Except.ok r
    | FetchOutcome.failure e =>
      fetchLoop attempts (some e) (attempt + 1) remaining

/-- `fetchWithRetry` from adapters/types.ts. -/
def fetchWithRetry (attempts : ℕ → FetchOutcome) (maxRetries : ℕ) :
    Except String HttpResp :=
  fetchLoop attempts none 0 maxRetries

/-! ## JSON values (for the envelope and the HTTP handlers) -/

/-- JS values exchanged over HTTP, as far as the embedded handlers
inspect them. -/
inductive Json where
  | null : Json
  | bool (b : Bool) : Json
  | num (q : ℚ) : Json
  | str (s : String) : Json
  | arr (items : List Json) : Json
  | obj (fields : List (String × Json)) : Json

/-- First-match association-list lookup (JS property access). -/
def lookupList (k : String) : List (String × Json) → Option Json
  | [] => none
  | kv :: rest => if kv.1 = k then some kv.2 else lookupList k rest

/-- Field access on a JSON value; `none` for non-objects. -/
def lookupField (j : Json) (k : String) : Option Json :=
  match j with
  | Json.obj fields => lookupList k fields
  | _ => none

/-! ## Oracle envelope (chainlink/response.ts) -/

/-- `buildSuccessResponse`: the success envelope.  `requestId` is the
JS `string | number` id. -/
def buildSuccessResponse (requestId : Json) (price : AggregatedPrice) : Json :=
  Json.obj
    [("jobRunID", requestId),
     ("statusCode", Json.num 200),
     ("data", Json.obj
       [("result", Json.str (toString price.priceInt)),
        ("price", Json.num price.price),
        ("twap", Json.num price.twap),
        ("priceInt", Json.str (toString price.priceInt)),
        ("sourceCount", Json.num price.sourceCount),
        ("timestamp", Json.num price.timestamp),
        ("assetId", Json.str price.assetId)])]

/-- `buildErrorResponse`: the error envelope. -/
def buildErrorResponse (requestId : Json) (statusCode : ℚ) (error : String) :
    Json :=
  Json.obj
    [("jobRunID", requestId),
     ("statusCode", Json.num statusCode),
     ("error", Json.str error)]

/-- `validateRequest` from chainlink/response.ts: the body must be a
(truthy) object, must have an `id` property, and its `data` property
must be a (truthy) object; the validated request `{id, data}` is
returned, else null.  (In JS an array is also `typeof 'object'`.) -/
def validateRequest (body : Json) : Option (Json × Json) :=
  match body with
  | Json.obj _ =>
    match lookupField body "id" with
    | none => none
    | some idVal =>
      match lookupField body "data" with
      | some (Json.obj dfields) => some (idVal, Json.obj dfields)
      | some (Json.arr items) => some (idVal, Json.arr items)
      | _ => none
  | Json.arr items =>
    match lookupField (Json.arr items) "id" with
    | none => none
    | some _ => none
  | _ => none

/-! ## History-store HTTP handlers -/

/-- A stored hardware history row (snake_case Supabase fields). -/
structure HardwareHistRecord where
  asset_id : String
  timestamp : ℤ
  price : ℚ
  twap : ℚ
  source_count : ℕ

/-- A stored rental history row. -/
structure RentalHistRecord where
  gpu_type : String
  timestamp : ℤ
  avg_price : ℚ
  min_price : ℚ
  max_price : ℚ
  offer_count : ℕ
  interruptible_avg : ℚ
  on_demand_avg : ℚ

/-- An HTTP response produced by a route handler. -/
structure HttpResult where
  status : ℕ
  body : Json

/-- The `GET /prices/history` handler (chainlink/adapter.ts):
`configured` is whether `getSupabase()` is non-null, `queryResult` the
outcome of `getHardwareHistory`. -/
def pricesHistoryHandler (configured : Bool)
    (queryResult : Except String (List HardwareHistRecord)) : HttpResult :=
  if ¬ configured then
    HttpResult.mk 503 (Json.obj
      [("error", Json.str "History storage not configured"),
       ("message",
        Json.str "Supabase is not configured for hardware price history.")])
  else
    match queryResult with
    | Except.ok history =>
      let formatted := history.map fun r => Json.obj
        [("assetId", Json.str r.asset_id),
         ("timestamp", Json.num r.timestamp),
         ("price", Json.num r.price),
         ("twap", Json.num r.twap),
         ("sourceCount", Json.num r.source_count)]
      HttpResult.mk 200 (Json.obj
        [("history", Json.arr formatted),
         ("count", Json.num formatted.length),
         ("source", Json.str "supabase")])
    | Except.error _ =>
      HttpResult.mk 500 (Json.obj
        [("error", Json.str "Failed to fetch hardware history")])

/-- The `GET /rental/history` handler (api/rental.ts). -/
def rentalHistoryHandler (configured : Bool)
    (queryResult : Except String (List RentalHistRecord)) : HttpResult :=
  if ¬ configured then
    HttpResult.mk 503 (Json.obj
      [("error", Json.str "History storage not configured"),
       ("message",
        Json.str "Supabase is not configured. Set SUPABASE_URL and SUPABASE_ANON_KEY.")])
  else
    match queryResult with
    | Except.ok history =>
      let formatted := history.map fun r => Json.obj
        [("gpuType", Json.str r.gpu_type),
         ("timestamp", Json.num r.timestamp),
         ("avgPrice", Json.num r.avg_price),
         ("minPrice", Json.num r.min_price),
         ("maxPrice", Json.num r.max_price),
         ("offerCount", Json.num r.offer_count),
         ("interruptibleAvg", Json.num r.interruptible_avg),
         ("onDemandAvg", Json.num r.on_demand_avg)]
      HttpResult.mk 200 (Json.obj
        [("history", Json.arr formatted),
         ("count", Json.num formatted.length)])
    | Except.error _ =>
      HttpResult.mk 500 (Json.obj
        [("error", Json.str "Failed to fetch rental history")])

/-! ## Rental-marketplace adapter (adapters/rental-vastai.ts) -/

/-- The tracked rental GPU types. -/
inductive RentalGpuType where
  | RTX_4090 | RTX_3090 | A100_80GB | A100_40GB
  | H100_80GB | H100_PCIE | A6000 | L40S
  deriving DecidableEq

/-- The display spelling of a GPU type (its TS identifier). -/
def gpuTypeName : RentalGpuType → String
  | RentalGpuType.RTX_4090 => "RTX_4090"
  | RentalGpuType.RTX_3090 => "RTX_3090"
  | RentalGpuType.A100_80GB => "A100_80GB"
  | RentalGpuType.A100_40GB => "A100_40GB"
  | RentalGpuType.H100_80GB => "H100_80GB"
  | RentalGpuType.H100_PCIE => "H100_PCIE"
  | RentalGpuType.A6000 => "A6000"
  | RentalGpuType.L40S => "L40S"

/-- A normalized rental offer (`RentalOffer`). -/
structure RentalOffer where
  id : String
  gpuType : RentalGpuType
  gpuCount : ℤ
  pricePerHour : ℚ
  pricePerGpuHour : ℚ
  totalVram : ℚ
  reliability : ℚ
  location : String
  provider : String
  available : Bool
  interruptible : Bool
  dlPerf : ℚ
  timestamp : ℤ
  deriving DecidableEq

/-- A raw offer record from the marketplace bundle-search endpoint,
with the fields `searchOffers` reads (absent fields are `none`). -/
structure RawOffer where
  id : ℤ
  num_gpus : Option ℤ
  dph_total : Option ℚ
  gpu_ram : Option ℚ
  reliability : Option ℚ
  geolocation : Option String
  hosting_type : Option ℤ
  rentable : Bool
  min_bid : Option ℚ
  dlperf : Option ℚ

/-- JS `x || d` for an optional number (0 counts as falsy). -/
def orFalsyQ (x : Option ℚ) (d : ℚ) : ℚ :=
  match x with
  | none => d
  | some v => if v = 0 then d else v

/-- JS `x || d` for an optional integer (0 counts as falsy). -/
def orFalsyZ (x : Option ℤ) (d : ℤ) : ℤ :=
  match x with
  | none => d
  | some v => if v = 0 then d else v

/-- JS `x || d` for an optional string (the empty string is falsy). -/
def orFalsyStr (x : Option String) (d : String) : String :=
  match x with
  | none => d
  | some s => if s = "" then d else s

/-- The per-offer normalization inside `searchOffers` (live path). -/
def normalizeOffer (gpuType : RentalGpuType) (offer : RawOffer) (now : ℤ) :
    RentalOffer :=
  { id := toString offer.id
    gpuType := gpuType
    gpuCount := orFalsyZ offer.num_gpus 1
    pricePerHour := orFalsyQ offer.dph_total 0
    pricePerGpuHour := orFalsyQ offer.dph_total 0 / (orFalsyZ offer.num_gpus 1 : ℚ)
    totalVram := orFalsyQ offer.gpu_ram 0 * (orFalsyZ offer.num_gpus 1 : ℚ) / 1024
    reliability := orFalsyQ offer.reliability 0
    location := orFalsyStr offer.geolocation "Unknown"
    provider := if offer.hosting_type = some 1 then "Datacenter" else "Consumer"
    available := offer.rentable
    interruptible := offer.min_bid.isSome
    dlPerf := orFalsyQ offer.dlperf 0
    timestamp := now }

/-- Rental price statistics (`RentalPriceStats`). -/
structure RentalPriceStats where
  gpuType : RentalGpuType
  minPrice : ℚ
  maxPrice : ℚ
  medianPrice : ℚ
  avgPrice : ℚ
  offerCount : ℕ
  interruptibleAvg : ℚ
  onDemandAvg : ℚ
  timestamp : ℤ

/-- The `defaults` table of `getDefaultStats` (min, max, avg). -/
def rentalDefaults : RentalGpuType → ℚ × ℚ × ℚ
  | RentalGpuType.RTX_4090 => (30 / 100, 70 / 100, 44 / 100)
  | RentalGpuType.RTX_3090 => (20 / 100, 50 / 100, 30 / 100)
  | RentalGpuType.A100_80GB => (150 / 100, 250 / 100, 189 / 100)
  | RentalGpuType.A100_40GB => (120 / 100, 200 / 100, 150 / 100)
  | RentalGpuType.H100_80GB => (200 / 100, 400 / 100, 285 / 100)
  | RentalGpuType.H100_PCIE => (180 / 100, 350 / 100, 250 / 100)
  | RentalGpuType.A6000 => (40 / 100, 80 / 100, 55 / 100)
  | RentalGpuType.L40S => (80 / 100, 150 / 100, 110 / 100)

/-- `getDefaultStats` from rental-vastai.ts. -/
def getDefaultStats (gpuType : RentalGpuType) (now : ℤ) : RentalPriceStats :=
  let def3 := rentalDefaults gpuType
  { gpuType := gpuType
    minPrice := def3.1
    maxPrice := def3.2.1
    medianPrice := def3.2.2
    avgPrice := def3.2.2
    offerCount := 0
    interruptibleAvg := def3.1 * (6 / 10)
    onDemandAvg := def3.2.2
    timestamp := now }

/-- `getVramForGpu` from rental-vastai.ts. -/
def getVramForGpu : RentalGpuType → ℚ
  | RentalGpuType.RTX_4090 => 24
  | RentalGpuType.RTX_3090 => 24
  | RentalGpuType.A100_80GB => 80
  | RentalGpuType.A100_40GB => 40
  | RentalGpuType.H100_80GB => 80
  | RentalGpuType.H100_PCIE => 80
  | RentalGpuType.A6000 => 48
  | RentalGpuType.L40S => 48

/-- The `Math.random()` draws consumed for one simulated offer. -/
structure SimDraw where
  isInterruptible : Bool
  variance : ℚ
  gpuCount : ℤ
  reliabilityRand : ℚ
  locationIdx : ℕ
  isDatacenter : Bool
  dlPerfRand : ℚ

/-- One offer fabricated by `generateSimulatedOffers` (fallback path
taken when the live endpoint is unavailable), with the random draws
made explicit.  Note `pricePerHour` and `pricePerGpuHour` are both set
to `price`. -/
def generateSimulatedOffer (gpuType : RentalGpuType) (i : ℕ) (d : SimDraw)
    (now : ℤ) : RentalOffer :=
  let baseStats := getDefaultStats gpuType now
  let basePrice :=
    if d.isInterruptible then baseStats.interruptibleAvg
    else baseStats.onDemandAvg
  let price := max (1 / 10) (basePrice * (1 + d.variance))
  { id := "sim-" ++ gpuTypeName gpuType ++ "-" ++ toString i
    gpuType := gpuType
    gpuCount := d.gpuCount
    pricePerHour := price
    pricePerGpuHour := price
    totalVram := getVramForGpu gpuType
    reliability := 9 / 10 + d.reliabilityRand * (1 / 10)
    location := ["US-West", "US-East", "EU-West", "Asia"].getD d.locationIdx "US-West"
    provider := if d.isDatacenter then "Datacenter" else "Consumer"
    available := true
    interruptible := d.isInterruptible
    dlPerf := d.dlPerfRand * 100 + 50
    timestamp := now }

/-! ## Median toolkit -/

/-- The two shapes of `median` on a non-empty list, expressed through
the sorted copy of the input. -/
theorem median_cases (values : List ℚ) (hne : values ≠ []) :
    (values.length % 2 = 0 ∧
      median values =
        ((List.insertionSort (· ≤ ·) values).getD (values.length / 2 - 1) 0 +
          (List.insertionSort (· ≤ ·) values).getD (values.length / 2) 0) / 2) ∨
    (values.length % 2 = 1 ∧
      median values =
        (List.insertionSort (· ≤ ·) values).getD (values.length / 2) 0) := by
  have hlen : ¬ values.length = 0 := by
    simpa [List.length_eq_zero] using hne
  have hslen : (List.insertionSort (· ≤ ·) values).length = values.length :=
    List.length_insertionSort _ _
  by_cases hpar : values.length % 2 = 0
  · left
    refine ⟨hpar, ?_⟩
    simp only [median, if_neg hlen, hslen, hpar, if_pos]
  · right
    refine ⟨by omega, ?_⟩
    simp only [median, if_neg hlen, hslen, hpar, if_neg, ite_false]

/-- Entries of the sorted copy of `values` are entries of `values`. -/
theorem sort_getD_mem (values : List ℚ) {i : ℕ} (hi : i < values.length) :
    (List.insertionSort (· ≤ ·) values).getD i 0 ∈ values := by
  have hslen : (List.insertionSort (· ≤ ·) values).length = values.length :=
    List.length_insertionSort _ _
  have hi' : i < (List.insertionSort (· ≤ ·) values).length := by omega
  rw [List.getD_eq_getElem _ _ hi']
  exact (List.perm_insertionSort _ values).subset (List.getElem_mem hi')

/-- The sorted copy of `values` is monotone in its index. -/
theorem sort_getD_mono (values : List ℚ) {i j : ℕ} (hij : i ≤ j)
    (hj : j < values.length) :
    (List.insertionSort (· ≤ ·) values).getD i 0 ≤
      (List.insertionSort (· ≤ ·) values).getD j 0 := by
  have hslen : (List.insertionSort (· ≤ ·) values).length = values.length :=
    List.length_insertionSort _ _
  have hj' : j < (List.insertionSort (· ≤ ·) values).length := by omega
  have hi' : i < (List.insertionSort (· ≤ ·) values).length := by omega
  rw [List.getD_eq_getElem _ _ hi', List.getD_eq_getElem _ _ hj']
  rcases Nat.lt_or_ge i j with hlt | hge
  · have hp := List.pairwise_iff_getElem.mp
      (List.sorted_insertionSort (· ≤ ·) values)
    exact hp i j hi' hj' hlt
  · have : i = j := by omega
    subst this
    exact le_refl _

/-- A lower bound for all entries is a lower bound for the median. -/
theorem le_median {c : ℚ} {values : List ℚ} (hne : values ≠ [])
    (h : ∀ x ∈ values, c ≤ x) : c ≤ median values := by
  have hlen : values.length ≠ 0 := by
    simpa [List.length_eq_zero] using hne
  rcases median_cases values hne with ⟨hpar, hmed⟩ | ⟨hpar, hmed⟩
  · rw [hmed]
    have h1 := h _ (sort_getD_mem values (show values.length / 2 - 1 < values.length by omega))
    have h2 := h _ (sort_getD_mem values (show values.length / 2 < values.length by omega))
    linarith
  · rw [hmed]
    exact h _ (sort_getD_mem values (show values.length / 2 < values.length by omega))

/-- A strict lower bound for all entries is strict for the median. -/
theorem lt_median {c : ℚ} {values : List ℚ} (hne : values ≠ [])
    (h : ∀ x ∈ values, c < x) : c < median values := by
  have hlen : values.length ≠ 0 := by
    simpa [List.length_eq_zero] using hne
  rcases median_cases values hne with ⟨hpar, hmed⟩ | ⟨hpar, hmed⟩
  · rw [hmed]
    have h1 := h _ (sort_getD_mem values (show values.length / 2 - 1 < values.length by omega))
    have h2 := h _ (sort_getD_mem values (show values.length / 2 < values.length by omega))
    linarith
  · rw [hmed]
    exact h _ (sort_getD_mem values (show values.length / 2 < values.length by omega))

/-- The median absolute deviation is never negative. -/
theorem mad_nonneg (values : List ℚ) : 0 ≤ medianAbsoluteDeviation values := by
  by_cases hlen : values.length = 0
  · simp [medianAbsoluteDeviation, hlen]
  · have hne : values.map (fun v => |v - median values|) ≠ [] := by
      simp [List.length_eq_zero] at hlen ⊢
      exact hlen
    rw [medianAbsoluteDeviation, if_neg hlen]
    refine le_median hne ?_
    intro x hx
    rcases List.mem_map.mp hx with ⟨v, _, rfl⟩
    exact abs_nonneg _

/-- At least half of the entries are at most the median. -/
theorem median_count (values : List ℚ) (hne : values ≠ []) :
    values.length ≤
      2 * values.countP (fun x => decide (x ≤ median values)) := by
  have hlen : values.length ≠ 0 := by
    simpa [List.length_eq_zero] using hne
  set p : ℚ → Bool := fun x => decide (x ≤ median values) with hp
  set s := List.insertionSort (· ≤ ·) values with hsdef
  have hslen : s.length = values.length := List.length_insertionSort _ _
  set t := (values.length + 1) / 2 with ht
  have htn : t ≤ values.length := by omega
  -- every entry of `s.take t` satisfies the predicate
  have htake : ∀ x ∈ s.take t, p x = true := by
    intro x hx
    rcases List.mem_iff_getElem.mp hx with ⟨i, hi, rfl⟩
    have hilen : i < t := by
      have := hi
      simp only [List.length_take] at this
      omega
    have hi2 : i < s.length := by
      have := hi
      simp only [List.length_take] at this
      omega
    have hval : (s.take t)[i] = s.getD i 0 := by
      rw [List.getElem_take, List.getD_eq_getElem _ _ hi2]
    rw [hval, hp]
    simp only [decide_eq_true_eq]
    have hstep : s.getD i 0 ≤ s.getD (t - 1) 0 :=
      sort_getD_mono values (by omega) (by omega)
    have hmed : s.getD (t - 1) 0 ≤ median values := by
      rcases median_cases values hne with ⟨hpar, hm⟩ | ⟨hpar, hm⟩
      · have hidx : t - 1 = values.length / 2 - 1 := by omega
        have hmono : s.getD (values.length / 2 - 1) 0 ≤
            s.getD (values.length / 2) 0 :=
          sort_getD_mono values (by omega) (by omega)
        rw [hidx, hm]
        linarith
      · have hidx : t - 1 = values.length / 2 := by omega
        rw [hidx, hm]
    exact le_trans hstep hmed
  have hcount : values.countP p = s.countP p :=
    ((List.perm_insertionSort (· ≤ ·) values).countP_eq p).symm
  have hsplit : s.countP p = (s.take t).countP p + (s.drop t).countP p := by
    rw [← List.countP_append, List.take_append_drop]
  have htlen : (s.take t).length = t := by
    simp only [List.length_take]
    omega
  have htfull : (s.take t).countP p = t := by
    have h1 := List.countP_eq_length.mpr htake
    rw [h1, htlen]
  have : t ≤ s.countP p := by
    rw [hsplit, htfull]
    omega
  omega

/-- C3: `filterOutliers` returns its input unchanged when given fewer
than 3 observations; otherwise, with `m` the median of the prices,
`d` their median absolute deviation, and `d' = d` if `d > 0` else
`0.01·m`, it keeps exactly those observations with
`|xᵢ − m| / (1.4826 · d') ≤ threshold`, preserving input order. -/
theorem c3_filterOutliers_spec (prices : List PricePoint) (threshold : ℚ) :
    filterOutliers prices threshold =
      if prices.length < 3 then prices
      else
        prices.filter fun p =>
          decide (|p.price - median (prices.map (·.price))| /
            ((14826 / 10000) *
              (if 0 < medianAbsoluteDeviation (prices.map (·.price)) then
                medianAbsoluteDeviation (prices.map (·.price))
               else (1 / 100) * median (prices.map (·.price)))) ≤ threshold) := by
  have hd := mad_nonneg (prices.map (·.price))
  have heq : (if medianAbsoluteDeviation (prices.map (·.price)) = 0 then
        median (prices.map (·.price)) * (1 / 100)
      else medianAbsoluteDeviation (prices.map (·.price))) =
      (if 0 < medianAbsoluteDeviation (prices.map (·.price)) then
        medianAbsoluteDeviation (prices.map (·.price))
      else (1 / 100) * median (prices.map (·.price))) := by
    rcases eq_or_lt_of_le hd with h0 | h0
    · rw [if_pos h0.symm, ← h0, if_neg (lt_irrefl 0), mul_comm]
    · rw [if_neg h0.ne', if_pos h0]
  simp only [filterOutliers, madScale, heq]

/-! ## Inserting the median (claim C9 machinery) -/

/-- Reading the inserted element back out of
`take k ++ m :: drop k`. -/
theorem take_cons_drop_getD (s : List ℚ) (m : ℚ) (k : ℕ) (hk : k ≤ s.length) :
    (s.take k ++ m :: s.drop k).getD k 0 = m := by
  have hlt : (s.take k).length = k := by
    simp only [List.length_take]
    omega
  have hklen : k < (s.take k ++ m :: s.drop k).length := by
    simp only [List.length_append, List.length_take, List.length_cons,
      List.length_drop]
    omega
  rw [List.getD_eq_getElem _ _ hklen,
    List.getElem_append_right (by omega : (s.take k).length ≤ k)]
  simp [hlt]

/-- Reading the entry after the inserted element back out of
`take k ++ m :: drop k`. -/
theorem take_cons_drop_getD_succ (s : List ℚ) (m : ℚ) (k : ℕ)
    (hk : k < s.length) :
    (s.take k ++ m :: s.drop k).getD (k + 1) 0 = s.getD k 0 := by
  have hlt : (s.take k).length = k := by
    simp only [List.length_take]
    omega
  have hklen : k + 1 < (s.take k ++ m :: s.drop k).length := by
    simp only [List.length_append, List.length_take, List.length_cons,
      List.length_drop]
    omega
  rw [List.getD_eq_getElem _ _ hklen,
    List.getElem_append_right (by omega : (s.take k).length ≤ k + 1),
    List.getD_eq_getElem _ _ hk]
  have hidx : k + 1 - (s.take k).length = 1 := by omega
  simp only [hidx, List.getElem_cons_succ, List.getElem_drop, Nat.add_zero]

/-- Inserting a value between the lower and upper half of a sorted
list keeps it sorted. -/
theorem sorted_insert_mid (s : List ℚ) (m : ℚ) (k : ℕ)
    (hs : List.Sorted (· ≤ ·) s) (_hk : k ≤ s.length)
    (hlow : ∀ x ∈ s.take k, x ≤ m)
    (hhigh : ∀ y ∈ s.drop k, m ≤ y) :
    List.Sorted (· ≤ ·) (s.take k ++ m :: s.drop k) := by
  refine List.pairwise_append.mpr ⟨?_, ?_, ?_⟩
  · exact List.Pairwise.sublist (List.take_sublist k s) hs
  · refine List.pairwise_cons.mpr ⟨hhigh, ?_⟩
    exact List.Pairwise.sublist (List.drop_sublist k s) hs
  · intro x hx y hy
    rcases List.mem_cons.mp hy with rfl | hy2
    · exact hlow x hx
    · exact le_trans (hlow x hx) (hhigh y hy2)

/-- The median of a non-empty list bounds the lower half from above
and the upper half from below (indices on the sorted copy). -/
theorem median_between (xs : List ℚ) (hne : xs ≠ []) :
    (∀ x ∈ (List.insertionSort (· ≤ ·) xs).take (xs.length / 2), x ≤ median xs) ∧
    (∀ y ∈ (List.insertionSort (· ≤ ·) xs).drop (xs.length / 2), median xs ≤ y) := by
  have hlen : xs.length ≠ 0 := by
    simpa [List.length_eq_zero] using hne
  set s := List.insertionSort (· ≤ ·) xs with hsdef
  have hslen : s.length = xs.length := List.length_insertionSort _ _
  set k := xs.length / 2 with hkdef
  have hbound : (∀ i, i < k → s.getD i 0 ≤ median xs) ∧
      (∀ j, k ≤ j → j < xs.length → median xs ≤ s.getD j 0) := by
    rcases median_cases xs hne with ⟨hpar, hm⟩ | ⟨hpar, hm⟩
    · have hmono : s.getD (k - 1) 0 ≤ s.getD k 0 :=
        sort_getD_mono xs (by omega) (by omega)
      constructor
      · intro i hi
        have h1 : s.getD i 0 ≤ s.getD (k - 1) 0 :=
          sort_getD_mono xs (by omega) (by omega)
        rw [hm]
        have : xs.length / 2 - 1 = k - 1 := by omega
        rw [this]
        linarith
      · intro j hjk hjn
        have h1 : s.getD k 0 ≤ s.getD j 0 := sort_getD_mono xs hjk (by omega)
        rw [hm]
        linarith
    · constructor
      · intro i hi
        have h1 : s.getD i 0 ≤ s.getD k 0 :=
          sort_getD_mono xs (by omega) (by omega)
        rw [hm]
        exact h1
      · intro j hjk hjn
        rw [hm]
        exact sort_getD_mono xs hjk (by omega)
  constructor
  · intro x hx
    rcases List.mem_iff_getElem.mp hx with ⟨i, hi, rfl⟩
    have hi2 : i < k := by
      have := hi
      simp only [List.length_take] at this
      omega
    have hi3 : i < s.length := by omega
    have : (s.take k)[i] = s.getD i 0 := by
      rw [List.getElem_take, List.getD_eq_getElem _ _ hi3]
    rw [this]
    exact hbound.1 i hi2
  · intro y hy
    rcases List.mem_iff_getElem.mp hy with ⟨j, hj, rfl⟩
    have hj2 : k + j < xs.length := by
      have := hj
      simp only [List.length_drop] at this
      omega
    have hj3 : k + j < s.length := by omega
    have : (s.drop k)[j] = s.getD (k + j) 0 := by
      rw [List.getElem_drop, List.getD_eq_getElem _ _ hj3]
    rw [this]
    exact hbound.2 (k + j) (by omega) (by omega)

/-- Sorting `xs ++ [median xs]` inserts the median exactly between the
two halves of the sorted copy of `xs`. -/
theorem sort_append_median (xs : List ℚ) (hne : xs ≠ []) :
    List.insertionSort (· ≤ ·) (xs ++ [median xs]) =
      (List.insertionSort (· ≤ ·) xs).take (xs.length / 2) ++
        median xs :: (List.insertionSort (· ≤ ·) xs).drop (xs.length / 2) := by
  set m := median xs with hmdef
  set s := List.insertionSort (· ≤ ·) xs with hsdef
  have hslen : s.length = xs.length := List.length_insertionSort _ _
  set k := xs.length / 2 with hkdef
  have hperm : List.Perm (List.insertionSort (· ≤ ·) (xs ++ [m]))
      (s.take k ++ m :: s.drop k) := by
    have p1 : List.Perm (List.insertionSort (· ≤ ·) (xs ++ [m])) (xs ++ [m]) :=
      List.perm_insertionSort _ _
    have p2 : List.Perm (xs ++ [m]) (m :: xs) := List.perm_append_singleton m xs
    have p3 : List.Perm (m :: xs) (m :: s) :=
      ((List.perm_insertionSort _ xs).symm).cons m
    have p4 : List.Perm (s.take k ++ m :: s.drop k)
        (m :: (s.take k ++ s.drop k)) := List.perm_middle
    rw [List.take_append_drop] at p4
    exact p1.trans (p2.trans (p3.trans p4.symm))
  have hsorted2 : List.Sorted (· ≤ ·) (s.take k ++ m :: s.drop k) := by
    refine sorted_insert_mid s m k (List.sorted_insertionSort _ xs) (by omega)
      ?_ ?_
    · exact (median_between xs hne).1
    · exact (median_between xs hne).2
  exact List.eq_of_perm_of_sorted hperm
    (List.sorted_insertionSort _ _) hsorted2

/-- C9: appending the median of a non-empty list to the list leaves
the median unchanged, under the implementation's convention (even
length: mean of the two middle sorted values; odd: the middle
value). -/
theorem c9_median_insert_median (xs : List ℚ) (hne : xs ≠ []) :
    median (xs ++ [median xs]) = median xs := by
  set m := median xs with hmdef
  set s := List.insertionSort (· ≤ ·) xs with hsdef
  have hslen : s.length = xs.length := List.length_insertionSort _ _
  have hlen : xs.length ≠ 0 := by
    simpa [List.length_eq_zero] using hne
  set n := xs.length with hndef
  set k := n / 2 with hkdef
  have hlen2 : (xs ++ [m]).length = n + 1 := by
    simp [List.length_append]
  have hne2 : xs ++ [m] ≠ [] := by
    simp
  have hsort2 := sort_append_median xs hne
  rcases median_cases (xs ++ [m]) hne2 with ⟨hpar, hmed⟩ | ⟨hpar, hmed⟩
  · -- `n + 1` even, so `n` odd and the two middle entries are `m` itself
    have hnodd : n % 2 = 1 := by omega
    have hidx1 : (xs ++ [m]).length / 2 - 1 = k := by omega
    have hidx2 : (xs ++ [m]).length / 2 = k + 1 := by omega
    rw [hmed, hidx1, hidx2, hsort2,
      take_cons_drop_getD s m k (by omega),
      take_cons_drop_getD_succ s m k (by omega)]
    have hmk : s.getD k 0 = m := by
      rcases median_cases xs hne with ⟨hpar2, _⟩ | ⟨_, hm2⟩
      · omega
      · exact hm2.symm
    rw [hmk]
    ring
  · -- `n + 1` odd, so `n` even and the middle entry is the inserted `m`
    have hidx : (xs ++ [m]).length / 2 = k := by omega
    rw [hmed, hidx, hsort2, take_cons_drop_getD s m k (by omega)]

/-! ## Claims C10, C2, C1 -/

/-- At least half of any non-empty observation list lies within one
MAD of the median of its prices. -/
theorem half_within_mad (prices : List PricePoint) (hne : prices ≠ []) :
    prices.length ≤ 2 * prices.countP (fun p =>
      decide (|p.price - median (prices.map (·.price))| ≤
        medianAbsoluteDeviation (prices.map (·.price)))) := by
  have hplen : prices.length ≠ 0 := by
    simpa [List.length_eq_zero] using hne
  have hvlen : ¬ (prices.map (·.price)).length = 0 := by
    rw [List.length_map]
    omega
  have hmad : medianAbsoluteDeviation (prices.map (·.price)) =
      median ((prices.map (·.price)).map
        (fun v => |v - median (prices.map (·.price))|)) := by
    rw [medianAbsoluteDeviation, if_neg hvlen]
  have hdevne : (prices.map (·.price)).map
      (fun v => |v - median (prices.map (·.price))|) ≠ [] := by
    intro hcon
    have := congrArg List.length hcon
    simp only [List.length_map, List.length_nil] at this
    omega
  have hcnt := median_count _ hdevne
  rw [List.countP_map, List.countP_map] at hcnt
  simp only [Function.comp_def] at hcnt
  have hlen2 : (((prices.map (·.price)).map
      (fun v => |v - median (prices.map (·.price))|))).length =
      prices.length := by
    simp [List.length_map]
  rw [hlen2] at hcnt
  rw [hmad]
  exact hcnt

/-- C10: with at least 3 observations, all of positive price, the MAD
filter at the default threshold keeps every observation within one MAD
of the median, at least half of the input is within one MAD of the
median, the filtered list is non-empty, and consequently the
`medianPrice = 0` fallback branch of `updatePrice` is not taken: the
stored price is the median of the filtered prices. -/
theorem c10_filterOutliers_nonempty (prices : List PricePoint)
    (h3 : 3 ≤ prices.length) (hpos : ∀ p ∈ prices, 0 < p.price) :
    (∀ p ∈ prices,
      |p.price - median (prices.map (·.price))| ≤
        medianAbsoluteDeviation (prices.map (·.price)) →
      p ∈ filterOutliers prices defaultThreshold) ∧
    prices.length ≤ 2 * prices.countP (fun p =>
      decide (|p.price - median (prices.map (·.price))| ≤
        medianAbsoluteDeviation (prices.map (·.price)))) ∧
    filterOutliers prices defaultThreshold ≠ [] ∧
    (∀ windowMs changeThreshold st assetId results now,
      List.flatten results = prices →
      (updatePrice windowMs changeThreshold st assetId results now).2.price.price =
        median ((filterOutliers prices defaultThreshold).map (·.price))) := by
  have hvne : prices.map (·.price) ≠ [] := by
    have : (prices.map (·.price)).length = prices.length := List.length_map _ _
    intro hcon
    rw [hcon] at this
    simp at this
    omega
  have hvlen : ¬ (prices.map (·.price)).length = 0 := by
    rw [List.length_map]
    omega
  have hmpos : 0 < median (prices.map (·.price)) := by
    refine lt_median hvne ?_
    intro x hx
    rcases List.mem_map.mp hx with ⟨p, hp, rfl⟩
    exact hpos p hp
  have hd := mad_nonneg (prices.map (·.price))
  have hnot3 : ¬ prices.length < 3 := by omega
  -- part 1: retention of all points within one MAD of the median
  have part1 : ∀ p ∈ prices,
      |p.price - median (prices.map (·.price))| ≤
        medianAbsoluteDeviation (prices.map (·.price)) →
      p ∈ filterOutliers prices defaultThreshold := by
    intro p hp hdev
    rw [filterOutliers, if_neg hnot3]
    refine List.mem_filter.mpr ⟨hp, ?_⟩
    simp only [decide_eq_true_eq]
    rcases eq_or_lt_of_le hd with h0 | h0
    · have hzero : |p.price - median (prices.map (·.price))| = 0 := by
        have := abs_nonneg (p.price - median (prices.map (·.price)))
        rw [← h0] at hdev
        linarith
      rw [hzero, zero_div]
      rw [defaultThreshold]
      norm_num
    · have hne0 : ¬ medianAbsoluteDeviation (prices.map (·.price)) = 0 :=
        h0.ne'
      rw [if_neg hne0]
      have hkpos : 0 < madScale * medianAbsoluteDeviation (prices.map (·.price)) := by
        rw [madScale]
        positivity
      rw [div_le_iff₀ hkpos, defaultThreshold, madScale]
      rw [madScale] at hkpos
      nlinarith
  have hprne : prices ≠ [] := by
    intro hcon
    rw [hcon] at h3
    simp at h3
  have part2 := half_within_mad prices hprne
  have part3 : filterOutliers prices defaultThreshold ≠ [] := by
    have hcnt2 : 0 < prices.countP (fun p =>
        decide (|p.price - median (prices.map (·.price))| ≤
          medianAbsoluteDeviation (prices.map (·.price)))) := by
      omega
    rcases List.countP_pos_iff.mp hcnt2 with ⟨p, hp, hpdec⟩
    have hpmem : p ∈ filterOutliers prices defaultThreshold := by
      refine part1 p hp ?_
      simpa using hpdec
    exact List.ne_nil_of_mem hpmem
  refine ⟨part1, part2, part3, ?_⟩
  intro windowMs changeThreshold st assetId results now hflat
  have hlenpos : 0 < (filterOutliers prices defaultThreshold).length :=
    List.length_pos.mpr part3
  simp only [updatePrice, hflat]
  rw [if_pos hlenpos]

/-- C2: whatever rounds have run, every record `getPrice` returns
satisfies `priceInt = round(price · 10⁸)`. -/
theorem c2_priceInt_round (st : AggState) (h : Reachable st) :
    ∀ a v, getPrice st a = some v →
      v.priceInt = round (v.price * 100000000) := by
  induction h with
  | init =>
    intro a v hv
    simp [getPrice, initState] at hv
  | step windowMs changeThreshold st' assetId results now hst ih =>
    intro a v hv
    by_cases haid : a = assetId
    · subst haid
      simp only [getPrice, updatePrice, if_pos] at hv
      cases hv
      rfl
    · simp only [getPrice, updatePrice] at hv
      rw [if_neg haid] at hv
      exact ih a v hv

/-- C2 witness: a concrete one-round state on which the invariant is
applied. -/
theorem c2_priceInt_round_witness :
    Reachable (updatePrice 300000 1 initState "A"
      [[PricePoint.mk 100 "s" 1000 "A"]] 1000).1 ∧
    getPrice (updatePrice 300000 1 initState "A"
        [[PricePoint.mk 100 "s" 1000 "A"]] 1000).1 "A" =
      some (AggregatedPrice.mk "A" 100 100 (toPriceInt 100) 1 1000 1000 "USD"
        [SourceDetail.mk "s" 100 1 false]) ∧
    (AggregatedPrice.mk "A" 100 100 (toPriceInt 100) 1 1000 1000 "USD"
      [SourceDetail.mk "s" 100 1 false]).priceInt =
      round ((AggregatedPrice.mk "A" 100 100 (toPriceInt 100) 1 1000 1000 "USD"
        [SourceDetail.mk "s" 100 1 false]).price * 100000000) := by
  refine ⟨Reachable.step _ _ _ _ _ _ Reachable.init, rfl, ?_⟩
  exact c2_priceInt_round
    (updatePrice 300000 1 initState "A"
      [[PricePoint.mk 100 "s" 1000 "A"]] 1000).1
    (Reachable.step 300000 1 initState "A"
      [[PricePoint.mk 100 "s" 1000 "A"]] 1000 Reachable.init)
    "A"
    (AggregatedPrice.mk "A" 100 100 (toPriceInt 100) 1 1000 1000 "USD"
      [SourceDetail.mk "s" 100 1 false])
    rfl

/-- C1 counterexample: after a successful round for asset `A`
(price 100 at `t = 1000`), a round in which every adapter yields no
observations does not keep the last good value: `getPrice` afterwards
reports price 0 with the new round's timestamp 2000. -/
theorem c1_counterexample :
    ((getPrice (updatePrice 300000 1 initState "A"
        [[PricePoint.mk 100 "s" 1000 "A"]] 1000).1 "A").map (·.price) =
      some 100 ∧
     (getPrice (updatePrice 300000 1 initState "A"
        [[PricePoint.mk 100 "s" 1000 "A"]] 1000).1 "A").map (·.timestamp) =
      some 1000) ∧
    ((getPrice (updatePrice 300000 1
        (updatePrice 300000 1 initState "A"
          [[PricePoint.mk 100 "s" 1000 "A"]] 1000).1
        "A" [[], []] 2000).1 "A").map (·.price) = some 0 ∧
     (getPrice (updatePrice 300000 1
        (updatePrice 300000 1 initState "A"
          [[PricePoint.mk 100 "s" 1000 "A"]] 1000).1
        "A" [[], []] 2000).1 "A").map (·.timestamp) = some 2000) := by
  exact ⟨⟨rfl, rfl⟩, ⟨rfl, rfl⟩⟩

/-- C1 amended: a round in which every adapter yields no observations
replaces the stored record with a fresh one carrying price 0,
`priceInt` 0, no sources, and the failing round's timestamp; `getPrice`
returns this new record rather than the last good value. -/
theorem c1_amended (windowMs : ℤ) (changeThreshold : ℚ) (st : AggState)
    (assetId : String) (results : List (List PricePoint)) (now : ℤ)
    (hempty : ∀ r ∈ results, r = []) :
    ∃ v, getPrice (updatePrice windowMs changeThreshold st assetId
        results now).1 assetId = some v ∧
      v.price = 0 ∧ v.priceInt = 0 ∧ v.sourceCount = 0 ∧
      v.timestamp = now ∧ v.updatedAt = now ∧ v.sources = [] := by
  have hflat : results.flatten = [] := List.flatten_eq_nil_iff.mpr hempty
  refine ⟨(updatePrice windowMs changeThreshold st assetId results now).2.price,
    ?_, ?_, ?_, ?_, ?_, ?_, ?_⟩
  · simp [getPrice, updatePrice]
  · simp only [updatePrice, hflat]
    rfl
  · simp only [updatePrice, hflat]
    show toPriceInt 0 = 0
    simp [toPriceInt]
  · simp only [updatePrice, hflat]
    rfl
  · simp only [updatePrice]
  · simp only [updatePrice]
  · simp only [updatePrice, hflat]
    rfl

/-- C1 amended witness: the amended statement applied to a concrete
all-failed round following a good round. -/
theorem c1_amended_witness :
    (∀ r ∈ [([] : List PricePoint), []], r = []) ∧
    ∃ v, getPrice (updatePrice 300000 1
        (updatePrice 300000 1 initState "A"
          [[PricePoint.mk 100 "s" 1000 "A"]] 1000).1
        "A" [[], []] 2000).1 "A" = some v ∧
      v.price = 0 ∧ v.priceInt = 0 ∧ v.sourceCount = 0 ∧
      v.timestamp = 2000 ∧ v.updatedAt = 2000 ∧ v.sources = [] := by
  refine ⟨by simp, ?_⟩
  exact c1_amended 300000 1 _ "A" [[], []] 2000 (by simp)

/-! ## Claims C6, C7, C8 -/

/-- C6 counterexample: with the history store unconfigured both
history handlers do answer 503, but neither response body contains a
`history` field at all (so no `history: []`). -/
theorem c6_counterexample :
    (pricesHistoryHandler false (Except.ok [])).status = 503 ∧
    lookupField (pricesHistoryHandler false (Except.ok [])).body "history" =
      none ∧
    (rentalHistoryHandler false (Except.ok [])).status = 503 ∧
    lookupField (rentalHistoryHandler false (Except.ok [])).body "history" =
      none := by
  exact ⟨rfl, rfl, rfl, rfl⟩

/-- C6 amended: every history range query issued while the history
store is unconfigured responds with HTTP status 503 and a body
carrying `error: "History storage not configured"` (plus a `message`);
the body contains no `history` key. -/
theorem c6_amended (q1 : Except String (List HardwareHistRecord))
    (q2 : Except String (List RentalHistRecord)) :
    (pricesHistoryHandler false q1).status = 503 ∧
    lookupField (pricesHistoryHandler false q1).body "error" =
      some (Json.str "History storage not configured") ∧
    lookupField (pricesHistoryHandler false q1).body "history" = none ∧
    (rentalHistoryHandler false q2).status = 503 ∧
    lookupField (rentalHistoryHandler false q2).body "error" =
      some (Json.str "History storage not configured") ∧
    lookupField (rentalHistoryHandler false q2).body "history" = none := by
  exact ⟨rfl, rfl, rfl, rfl, rfl, rfl⟩

/-- C7 counterexample: validating the success envelope yields null,
not a payload — the envelope carries `jobRunID`, not the `id` field
`validateRequest` requires. -/
theorem c7_counterexample :
    validateRequest (buildSuccessResponse (Json.str "x1")
      (AggregatedPrice.mk "GPU_RTX4090" 1599 1605 159900000000 3
        1704067200000 1704067200000 "USD" [])) = none := by
  rfl

/-- C7 amended: for every request id and aggregated price,
`validateRequest(buildSuccessResponse(id, p))` returns null, because
the success envelope stores the id under `jobRunID` rather than `id`;
the envelope itself does retain the id (as `jobRunID`) and carries the
numeric `statusCode` 200. -/
theorem c7_amended (requestId : Json) (p : AggregatedPrice) :
    validateRequest (buildSuccessResponse requestId p) = none ∧
    lookupField (buildSuccessResponse requestId p) "jobRunID" =
      some requestId ∧
    lookupField (buildSuccessResponse requestId p) "statusCode" =
      some (Json.num 200) := by
  exact ⟨rfl, rfl, rfl⟩

/-- C8 counterexample: a fabricated fallback offer with 2 GPUs has
`pricePerGpuHour = pricePerHour`, violating
`pricePerGpuHour = pricePerHour / gpuCount`. -/
theorem c8_counterexample :
    (generateSimulatedOffer RentalGpuType.RTX_4090 0
        (SimDraw.mk false 0 2 0 0 false 0) 0).pricePerGpuHour ≠
      (generateSimulatedOffer RentalGpuType.RTX_4090 0
          (SimDraw.mk false 0 2 0 0 false 0) 0).pricePerHour /
        ((generateSimulatedOffer RentalGpuType.RTX_4090 0
            (SimDraw.mk false 0 2 0 0 false 0) 0).gpuCount : ℚ) := by
  norm_num [generateSimulatedOffer, getDefaultStats, rentalDefaults]

/-- C8 amended: offers normalized from the live endpoint satisfy
`pricePerGpuHour = pricePerHour / gpuCount`; fabricated fallback
offers instead set `pricePerGpuHour = pricePerHour` (which equals
`pricePerHour / gpuCount` only when `gpuCount = 1`). -/
theorem c8_amended (gpuType : RentalGpuType) (offer : RawOffer) (i : ℕ)
    (d : SimDraw) (now now2 : ℤ) :
    (normalizeOffer gpuType offer now).pricePerGpuHour =
      (normalizeOffer gpuType offer now).pricePerHour /
        ((normalizeOffer gpuType offer now).gpuCount : ℚ) ∧
    (generateSimulatedOffer gpuType i d now2).pricePerGpuHour =
      (generateSimulatedOffer gpuType i d now2).pricePerHour := by
  exact ⟨rfl, rfl⟩

/-! ## Claim C5 -/

/-- Behaviour of the retry loop when the last attempt in range yields
a response and every earlier attempt either threw or got a 403/429
response: a non-403/429 final response is returned, a 403/429 final
response is discarded and an error is thrown. -/
theorem fetchLoop_final (attempts : ℕ → FetchOutcome) :
    ∀ (remaining attempt : ℕ) (lastErr : Option String) (r : HttpResp),
      0 < remaining →
      (∀ i, attempt ≤ i → i < attempt + remaining - 1 →
        (∃ e, attempts i = FetchOutcome.failure e) ∨
        (∃ resp, attempts i = FetchOutcome.response resp ∧
          (resp.status = 403 ∨ resp.status = 429))) →
      attempts (attempt + remaining - 1) = FetchOutcome.response r →
      ((r.status ≠ 403 ∧ r.status ≠ 429) →
        fetchLoop attempts lastErr attempt remaining = Except.ok r) ∧
      ((r.status = 403 ∨ r.status = 429) →
        ∃ e, fetchLoop attempts lastErr attempt remaining =
          Except.error e) := by
  intro remaining
  induction remaining with
  | zero =>
    intro attempt lastErr r h0
    simp at h0
  | succ rem ih =>
    intro attempt lastErr r _ hearlier hfinal
    by_cases hrem : rem = 0
    · subst hrem
      have hidx : attempt + 1 - 1 = attempt := by omega
      rw [hidx] at hfinal
      constructor
      · intro hok
        simp only [fetchLoop, hfinal]
        by_cases h200 : r.status = 200
        · rw [if_pos h200]
        · rw [if_neg h200,
            if_neg (by rcases hok with ⟨h1, h2⟩; tauto :
              ¬ (r.status = 403 ∨ r.status = 429))]
      · intro h43
        simp only [fetchLoop, hfinal]
        have h200 : ¬ r.status = 200 := by
          rcases h43 with h | h <;> omega
        rw [if_neg h200, if_pos h43]
        exact ⟨lastErr.getD "Max retries exceeded", by simp [fetchLoop]⟩
    · have hthis := hearlier attempt (le_refl _) (by omega)
      have hnext : ∀ i, attempt + 1 ≤ i → i < (attempt + 1) + rem - 1 →
          (∃ e, attempts i = FetchOutcome.failure e) ∨
          (∃ resp, attempts i = FetchOutcome.response resp ∧
            (resp.status = 403 ∨ resp.status = 429)) := by
        intro i h1 h2
        exact hearlier i (by omega) (by omega)
      have hfin2 : attempts ((attempt + 1) + rem - 1) =
          FetchOutcome.response r := by
        have hidx : (attempt + 1) + rem - 1 = attempt + (rem + 1) - 1 := by
          omega
        rw [hidx]
        exact hfinal
      rcases hthis with ⟨e, he⟩ | ⟨resp, hresp, hstat⟩
      · have hrec := ih (attempt + 1) (some e) r (by omega) hnext hfin2
        constructor
        · intro hok
          simp only [fetchLoop, he]
          exact hrec.1 hok
        · intro h43
          simp only [fetchLoop, he]
          exact hrec.2 h43
      · have h200 : ¬ resp.status = 200 := by
          rcases hstat with h | h <;> omega
        have hrec := ih (attempt + 1) lastErr r (by omega) hnext hfin2
        constructor
        · intro hok
          simp only [fetchLoop, hresp]
          rw [if_neg h200, if_pos hstat]
          exact hrec.1 hok
        · intro h43
          simp only [fetchLoop, hresp]
          rw [if_neg h200, if_pos hstat]
          exact hrec.2 h43

/-- C5 counterexample: a single-attempt run whose final (only) attempt
receives a 403 response throws `Max retries exceeded` instead of
returning that response. -/
theorem c5_counterexample :
    fetchWithRetry
      (fun _ => FetchOutcome.response (HttpResp.mk 403 "blocked")) 1 =
      Except.error "Max retries exceeded" := by
  rfl

/-- C5 amended: in every execution of `fetchWithRetry` whose final
attempt receives an HTTP response, that response is returned if its
status is neither 403 nor 429; a final-attempt 403/429 response is
discarded and an error is thrown instead. -/
theorem c5_amended (attempts : ℕ → FetchOutcome) (n : ℕ) (r : HttpResp)
    (hn : 0 < n)
    (hearlier : ∀ i, i < n - 1 →
      (∃ e, attempts i = FetchOutcome.failure e) ∨
      (∃ resp, attempts i = FetchOutcome.response resp ∧
        (resp.status = 403 ∨ resp.status = 429)))
    (hfinal : attempts (n - 1) = FetchOutcome.response r) :
    ((r.status ≠ 403 ∧ r.status ≠ 429) →
      fetchWithRetry attempts n = Except.ok r) ∧
    ((r.status = 403 ∨ r.status = 429) →
      ∃ e, fetchWithRetry attempts n = Except.error e) := by
  have hmain := fetchLoop_final attempts n 0 none r hn
    (by intro i h0 h2; exact hearlier i (by omega))
    (by
      have hidx : 0 + n - 1 = n - 1 := by omega
      rw [hidx]
      exact hfinal)
  simpa [fetchWithRetry] using hmain

/-- C5 amended witness: two attempts, the first throwing, the final
one answering 500; the 500 response is surfaced. -/
theorem c5_amended_witness :
    0 < 2 ∧
    fetchWithRetry (fun i => if i = 0 then FetchOutcome.failure "boom"
      else FetchOutcome.response (HttpResp.mk 500 "srv")) 2 =
      Except.ok (HttpResp.mk 500 "srv") := by
  refine ⟨by decide, ?_⟩
  exact (c5_amended
    (fun i => if i = 0 then FetchOutcome.failure "boom"
      else FetchOutcome.response (HttpResp.mk 500 "srv"))
    2 (HttpResp.mk 500 "srv") (by decide)
    (fun i hi => Or.inl ⟨"boom", by
      have h0 : i = 0 := by omega
      subst h0
      rfl⟩)
    rfl).1 ⟨by decide, by decide⟩

/-! ## Claim C4 -/

/-- `getLastD` of a non-empty list is an element of it. -/
theorem getLastD_mem {α : Type} (l : List α) (d : α) (h : l ≠ []) :
    l.getLastD d ∈ l := by
  cases l with
  | nil => exact absurd rfl h
  | cons a t =>
    rw [List.getLastD_cons]
    exact List.getLastD_mem_cons t a

/-- C4: `getTWAP` returns null when no observations remain in the
window, the lone price when exactly one remains, and otherwise the sum
over adjacent timestamp-sorted pairs of `priceᵢ·(tᵢ₊₁ − tᵢ)` plus the
last price extended over `now − t_last`, divided by the total weight
(stated for observations not in the future and a non-zero total
weight); on the concrete scenario — 1000 at t=0s, 1100 at t=120s,
evaluated at t=180s under a 300s window — `getTWAP` returns
`3100/3 = 1033.33…` and `getSpotPrice` returns 1100. -/
theorem c4_getTWAP_spec (windowMs : ℤ) (obs : List TwapObs) (now : ℤ) :
    (twapPrune windowMs now obs = [] → getTWAP windowMs obs now = none) ∧
    (∀ o, twapPrune windowMs now obs = [o] →
      getTWAP windowMs obs now = some o.price) ∧
    (∀ s last, s = twapSort (twapPrune windowMs now obs) →
      last = s.getLastD (TwapObs.mk 0 0) →
      2 ≤ (twapPrune windowMs now obs).length →
      (∀ o ∈ twapPrune windowMs now obs, o.timestamp ≤ now) →
      twapTotalWeight s + (now - last.timestamp) ≠ 0 →
      getTWAP windowMs obs now =
        some ((twapWeightedSum s +
            last.price * ((now - last.timestamp : ℤ) : ℚ)) /
          ((twapTotalWeight s + (now - last.timestamp) : ℤ) : ℚ))) ∧
    (getTWAP 300000 [TwapObs.mk 1000 0, TwapObs.mk 1100 120000] 180000 =
      some (3100 / 3) ∧
     getSpotPrice 300000 [TwapObs.mk 1000 0, TwapObs.mk 1100 120000] 180000 =
      some 1100) := by
  refine ⟨?_, ?_, ?_, ?_, ?_⟩
  · intro h
    simp [getTWAP, h]
  · intro o h
    simp [getTWAP, h]
  · intro s last hs hlast h2 hle htw
    have hc1 : ¬ (twapPrune windowMs now obs).length = 0 := by omega
    have hc2 : ¬ (twapPrune windowMs now obs).length = 1 := by omega
    have hsne : s ≠ [] := by
      intro hcon
      have hlen : s.length = (twapPrune windowMs now obs).length := by
        rw [hs]
        exact List.length_insertionSort _ _
      rw [hcon] at hlen
      simp at hlen
      omega
    have hlastmem : last ∈ twapPrune windowMs now obs := by
      have h1 : last ∈ s := by
        rw [hlast]
        exact getLastD_mem s (TwapObs.mk 0 0) hsne
      rw [hs] at h1
      exact (List.perm_insertionSort _ _).mem_iff.mp h1
    have hld : 0 ≤ now - last.timestamp := by
      have := hle last hlastmem
      omega
    rw [getTWAP]
    simp only [if_neg hc1, if_neg hc2]
    rw [← hs, ← hlast]
    rcases eq_or_lt_of_le hld with heq | hlt
    · have h0 : now - last.timestamp = 0 := heq.symm
      rw [h0]
      rw [if_neg (lt_irrefl 0), if_neg (lt_irrefl 0)]
      have htw2 : twapTotalWeight s ≠ 0 := by
        rw [h0] at htw
        omega
      rw [if_neg htw2]
      norm_num
    · rw [if_pos hlt, if_pos hlt, if_neg htw]
  · norm_num [getTWAP, twapPrune, twapSort, twapWeightedSum,
      twapTotalWeight, List.insertionSort, List.orderedInsert]
  · norm_num [getSpotPrice, twapPrune]

/-- C4 witness: the single-observation and heterogeneous-duration
clauses applied at concrete inputs. -/
theorem c4_getTWAP_spec_witness :
    (twapPrune 300000 0 [TwapObs.mk 5 0] = [TwapObs.mk 5 0] ∧
     getTWAP 300000 [TwapObs.mk 5 0] 0 = some 5) ∧
    (2 ≤ (twapPrune 300000 180000
        [TwapObs.mk 1000 0, TwapObs.mk 1100 120000]).length ∧
     (∀ o ∈ twapPrune 300000 180000
        [TwapObs.mk 1000 0, TwapObs.mk 1100 120000], o.timestamp ≤ 180000) ∧
     getTWAP 300000 [TwapObs.mk 1000 0, TwapObs.mk 1100 120000] 180000 =
       some ((twapWeightedSum (twapSort (twapPrune 300000 180000
             [TwapObs.mk 1000 0, TwapObs.mk 1100 120000])) +
           ((twapSort (twapPrune 300000 180000
               [TwapObs.mk 1000 0, TwapObs.mk 1100 120000])).getLastD
             (TwapObs.mk 0 0)).price *
             ((180000 - ((twapSort (twapPrune 300000 180000
                 [TwapObs.mk 1000 0, TwapObs.mk 1100 120000])).getLastD
               (TwapObs.mk 0 0)).timestamp : ℤ) : ℚ)) /
         ((twapTotalWeight (twapSort (twapPrune 300000 180000
             [TwapObs.mk 1000 0, TwapObs.mk 1100 120000])) +
           (180000 - ((twapSort (twapPrune 300000 180000
               [TwapObs.mk 1000 0, TwapObs.mk 1100 120000])).getLastD
             (TwapObs.mk 0 0)).timestamp) : ℤ) : ℚ))) := by
  refine ⟨⟨rfl, ?_⟩, by decide, by decide, ?_⟩
  · exact (c4_getTWAP_spec 300000 [TwapObs.mk 5 0] 0).2.1
      (TwapObs.mk 5 0) rfl
  · exact (c4_getTWAP_spec 300000
      [TwapObs.mk 1000 0, TwapObs.mk 1100 120000] 180000).2.2.1 _ _
      rfl rfl (by decide) (by decide) (by decide)

/-- C9 witness: inserting the median into `[1, 2]` (median `3/2`)
leaves the median unchanged. -/
theorem c9_median_insert_median_witness :
    ([1, 2] : List ℚ) ≠ [] ∧
    median (([1, 2] : List ℚ) ++ [median [1, 2]]) = median [1, 2] := by
  refine ⟨by decide, ?_⟩
  exact c9_median_insert_median [1, 2] (by decide)

/-- C10 witness: three positive-priced observations pass the length
and positivity hypotheses and the filtered list is non-empty. -/
theorem c10_filterOutliers_nonempty_witness :
    3 ≤ ([PricePoint.mk 100 "a" 0 "X", PricePoint.mk 101 "b" 0 "X",
      PricePoint.mk 102 "c" 0 "X"] : List PricePoint).length ∧
    (∀ p ∈ ([PricePoint.mk 100 "a" 0 "X", PricePoint.mk 101 "b" 0 "X",
      PricePoint.mk 102 "c" 0 "X"] : List PricePoint), 0 < p.price) ∧
    filterOutliers [PricePoint.mk 100 "a" 0 "X", PricePoint.mk 101 "b" 0 "X",
      PricePoint.mk 102 "c" 0 "X"] defaultThreshold ≠ [] := by
  refine ⟨by decide, by decide, ?_⟩
  exact (c10_filterOutliers_nonempty
    [PricePoint.mk 100 "a" 0 "X", PricePoint.mk 101 "b" 0 "X",
      PricePoint.mk 102 "c" 0 "X"] (by decide) (by decide)).2.2.1

end Hardex
